import Mathlib

set_option linter.unusedVariables false

/-!
# Verification of the ACME client (`src/poem/src/listener/acme/client.rs`)

Shallow embedding of the ACME protocol orchestrator. The network is modelled
as an oracle `Net` that maps the history of requests already sent plus the
current request to a transport result; every operation threads an explicit
`NetState` recording, in order, the requests it has sent. Pure helpers
(base64, JSON shapes) are translated directly; collaborators that live in
the repository but outside the provided source sample (`protocol.rs`,
`jose.rs`) are modelled from the spec and marked as such.
-/

namespace Acme

/-- A JSON value, used both for request payloads and decoded response
bodies. -/
inductive Json where
  | null : Json
  | bool (b : Bool) : Json
  | num (n : Int) : Json
  | str (s : String) : Json
  | arr (xs : List Json) : Json
  | obj (fields : List (String × Json)) : Json

/-- Field lookup on a JSON object; `none` on any other shape. -/
def Json.getField? (j : Json) (name : String) : Option Json :=
  match j with
  | .obj fields => fields.lookup name
  | _ => none

/-- Extract the string of a JSON string value. -/
def Json.asString? : Json → Option String
  | .str s => some s
  | _ => none

/-- An HTTP response body, as the raw bytes of the stream together with the
result of attempting to parse those bytes as JSON (`none` when the bytes are
not valid JSON). -/
structure RespBody where
  bytes : List Nat
  asJson : Option Json

/-- An HTTP response: status code, headers (lower-cased names mapped to raw
byte values), and body. -/
structure HttpResponse where
  status : Nat
  headers : List (String × List Nat)
  body : RespBody

/-- `http::StatusCode::is_success`: the 2xx range. -/
def isSuccess (status : Nat) : Bool :=
  200 ≤ status && status ≤ 299

/-- Header lookup by (lower-cased) name. -/
def lookupHeader (headers : List (String × List Nat)) (name : String) :
    Option (List Nat) :=
  headers.lookup name

/-- `http::HeaderValue::to_str` accepts exactly the visible-ASCII bytes
(32..126) and horizontal tab. -/
def isVisibleAscii (b : Nat) : Bool :=
  (32 ≤ b && b < 127) || b == 9

/-- `http::HeaderValue::to_str`: converts a header value to a string iff
every byte is visible ASCII or tab; otherwise fails. -/
def headerValueToStr? (bs : List Nat) : Option String :=
  if bs.all isVisibleAscii then some (String.mk (bs.map Char.ofNat)) else none

/-- The bytes of a string, for building concrete header values. -/
def strBytes (s : String) : List Nat :=
  s.data.map Char.toNat

/-- Opaque signing key material; the core only holds and forwards a
reference, never inspecting it. -/
structure KeyPair where
  id : Nat
deriving DecidableEq

/-- A request observable on the wire: an unsigned GET, or a signed POST
carrying the signing key, the optional account id (kid), the anti-replay
nonce, the target URL and the optional JSON payload of the signed
envelope. -/
inductive Request where
  | get (url : String) : Request
  | signedPost (kp : KeyPair) (kid : Option String) (nonce : String)
      (url : String) (payload : Option Json) : Request

/-- The network oracle: given the history of requests already sent and the
request now issued, produce either a transport error or an HTTP response.
Dependence on the history lets distinct calls observe distinct responses. -/
def Net : Type :=
  List Request → Request → Except String HttpResponse

/-- The requests sent so far, in order. -/
structure NetState where
  sent : List Request

/-- Issue one request: consult the oracle and append the request to the
history (a transport error still counts as an attempted send). -/
def sendReq (net : Net) (st : NetState) (r : Request) :
    Except String HttpResponse × NetState :=
  (net st.sent r, ⟨st.sent ++ [r]⟩)

/-! ## Protocol shapes (`protocol.rs`, not in the source sample) -/

/-- Modelled from the spec: the `Directory` shape of `protocol.rs` — the
immutable set of absolute endpoint URLs `{newNonce, newAccount, newOrder}`
fetched once from the CA. -/
structure Directory where
  new_nonce : String
  new_account : String
  new_order : String
deriving DecidableEq

/-- Modelled from the spec: JSON decoding of the `Directory` shape; every
endpoint field is required and any decode failure is fatal. -/
def Directory.fromJson? (j : Json) : Option Directory := do
  let nn ← (j.getField? "newNonce").bind Json.asString?
  let na ← (j.getField? "newAccount").bind Json.asString?
  let no ← (j.getField? "newOrder").bind Json.asString?
  some ⟨nn, na, no⟩

/-- Modelled from the spec: the `Identifier` shape of `protocol.rs` —
`(type = "dns", value = domain string)`; the Rust field `ty` is serialized
as `"type"`. -/
structure Identifier where
  ty : String
  value : String
deriving DecidableEq

/-- Serialization of an identifier. -/
def Identifier.toJson (i : Identifier) : Json :=
  .obj [("type", .str i.ty), ("value", .str i.value)]

/-- Modelled from the spec: the `NewOrderRequest` payload of `protocol.rs`,
carrying the ordered identifier list. -/
structure NewOrderRequest where
  identifiers : List Identifier

/-- Serialization of a new-order payload. -/
def NewOrderRequest.toJson (r : NewOrderRequest) : Json :=
  .obj [("identifiers", .arr (r.identifiers.map Identifier.toJson))]

/-- Modelled from the spec: the `NewAccountRequest` payload of
`protocol.rs`, with the fixed body
`{onlyReturnExisting: false, termsOfServiceAgreed: true, contact: []}`. -/
structure NewAccountRequest where
  only_return_existing : Bool
  terms_of_service_agreed : Bool
  contact : List String

/-- Serialization of a new-account payload. -/
def NewAccountRequest.toJson (r : NewAccountRequest) : Json :=
  .obj [("onlyReturnExisting", .bool r.only_return_existing),
        ("termsOfServiceAgreed", .bool r.terms_of_service_agreed),
        ("contact", .arr (r.contact.map Json.str))]

/-- Modelled from the spec: the `CsrRequest` payload of `protocol.rs`,
carrying the base64url-encoded CSR. -/
structure CsrRequest where
  csr : String

/-- Serialization of a CSR payload. -/
def CsrRequest.toJson (r : CsrRequest) : Json :=
  .obj [("csr", .str r.csr)]

/-- Modelled from the spec: the order response shape of `protocol.rs` — a
CA order resource with a status, an ordered list of authorization URLs, a
finalize URL and possibly a certificate URL. -/
structure NewOrderResponse where
  status : String
  authorizations : List String
  finalize : Option String
  certificate : Option String
deriving DecidableEq

/-- Modelled from the spec: JSON decoding of an order response; `status` is
required, the remaining fields are optional. -/
def NewOrderResponse.fromJson? (j : Json) : Option NewOrderResponse := do
  let status ← (j.getField? "status").bind Json.asString?
  let auths :=
    match j.getField? "authorizations" with
    | some (.arr xs) => xs.filterMap Json.asString?
    | _ => []
  some ⟨status, auths, (j.getField? "finalize").bind Json.asString?,
        (j.getField? "certificate").bind Json.asString?⟩

/-- Modelled from the spec: the `Challenge` shape of `protocol.rs` — one
validation method with a type, a token and a trigger URL. -/
structure Challenge where
  ty : String
  url : String
  token : String
deriving DecidableEq

/-- Modelled from the spec: the authorization response shape of
`protocol.rs` — a per-identifier resource with a status and its
challenges. -/
structure FetchAuthorizationResponse where
  identifier : Identifier
  status : String
  challenges : List Challenge
deriving DecidableEq

/-- Modelled from the spec: JSON decoding of an authorization response. -/
def FetchAuthorizationResponse.fromJson? (j : Json) :
    Option FetchAuthorizationResponse := do
  let idJson ← j.getField? "identifier"
  let ty ← (idJson.getField? "type").bind Json.asString?
  let value ← (idJson.getField? "value").bind Json.asString?
  let status ← (j.getField? "status").bind Json.asString?
  let challenges :=
    match j.getField? "challenges" with
    | some (.arr xs) =>
        xs.filterMap fun cj => do
          let cty ← (cj.getField? "type").bind Json.asString?
          let curl ← (cj.getField? "url").bind Json.asString?
          let ctoken ← (cj.getField? "token").bind Json.asString?
          some (⟨cty, curl, ctoken⟩ : Challenge)
    | _ => []
  some ⟨⟨ty, value⟩, status, challenges⟩

/-! ## base64 URL-safe, no-padding (the `base64` crate's `URL_SAFE_NO_PAD`) -/

/-- The character for one 6-bit group, in the URL-safe base64 alphabet
`A-Z a-z 0-9 - _`. -/
def b64Char (n : Nat) : Char :=
  if n < 26 then Char.ofNat (65 + n)
  else if n < 52 then Char.ofNat (97 + (n - 26))
  else if n < 62 then Char.ofNat (48 + (n - 52))
  else if n = 62 then Char.ofNat 45
  else Char.ofNat 95

/-- `base64::encode_config(_, URL_SAFE_NO_PAD)`: each 3-byte group becomes
4 characters; a trailing 1-byte group becomes 2 characters and a trailing
2-byte group 3 characters, with no `=` padding. -/
def b64Encode : List Nat → List Char
  | [] => []
  | [a] => [b64Char (a / 4 % 64), b64Char (a % 4 * 16)]
  | [a, b] =>
      [b64Char (a / 4 % 64), b64Char (a % 4 * 16 + b / 16 % 16),
       b64Char (b % 16 * 4)]
  | a :: b :: c :: rest =>
      b64Char (a / 4 % 64) :: b64Char (a % 4 * 16 + b / 16 % 16) ::
      b64Char (b % 16 * 4 + c / 64 % 4) :: b64Char (c % 64) :: b64Encode rest

/-- The 6-bit value of a URL-safe base64 character; `none` outside the
alphabet. -/
def b64Val? (ch : Char) : Option Nat :=
  let n := ch.toNat
  if 65 ≤ n ∧ n ≤ 90 then some (n - 65)
  else if 97 ≤ n ∧ n ≤ 122 then some (n - 97 + 26)
  else if 48 ≤ n ∧ n ≤ 57 then some (n - 48 + 52)
  else if n = 45 then some 62
  else if n = 95 then some 63
  else none

/-- URL-safe, no-padding base64 decoding: the inverse of `b64Encode`. -/
def b64Decode : List Char → Option (List Nat)
  | [] => some []
  | [_] => none
  | [c1, c2] => do
      let v1 ← b64Val? c1
      let v2 ← b64Val? c2
      some [v1 * 4 + v2 / 16]
  | [c1, c2, c3] => do
      let v1 ← b64Val? c1
      let v2 ← b64Val? c2
      let v3 ← b64Val? c3
      some [v1 * 4 + v2 / 16, v2 % 16 * 16 + v3 / 4]
  | c1 :: c2 :: c3 :: c4 :: rest => do
      let v1 ← b64Val? c1
      let v2 ← b64Val? c2
      let v3 ← b64Val? c3
      let v4 ← b64Val? c4
      let tail ← b64Decode rest
      some ((v1 * 4 + v2 / 16) :: (v2 % 16 * 16 + v3 / 4) :: (v3 % 4 * 64 + v4) :: tail)

/-- Membership in the URL-safe base64 alphabet `A-Z a-z 0-9 - _`. -/
def isUrlSafeB64Char (ch : Char) : Bool :=
  let n := ch.toNat
  (65 ≤ n && n ≤ 90) || (97 ≤ n && n ≤ 122) || (48 ≤ n && n ≤ 57) ||
    n == 45 || n == 95

/-! ## The JOSE signer (`jose.rs`, not in the source sample) -/

/-- Modelled from the spec: `jose::request` (raw variant of the
RequestSigner, `jose.rs` is outside the source sample) — wraps the payload
in a signed envelope carrying the key, the optional account id, the nonce
and the target URL, performs the exchange via Transport, and surfaces
non-success statuses as errors (non-2xx status plus problem document). -/
def joseRequest (net : Net) (st : NetState) (kp : KeyPair)
    (kid : Option String) (nonce : String) (url : String)
    (payload : Option Json) : Except String HttpResponse × NetState :=
  match sendReq net st (.signedPost kp kid nonce url payload) with
  | (.error e, st1) => (.error e, st1)
  | (.ok resp, st1) =>
      if isSuccess resp.status then (.ok resp, st1)
      else (.error ("request failed: status = " ++ toString resp.status), st1)

/-- Modelled from the spec: `jose::request_json` (typed-JSON-decoding
variant of the RequestSigner) — performs the signed exchange and decodes
the response body into the caller-specified shape, failing when the body is
not valid JSON or does not match the shape. -/
def joseRequestJson {α : Type} (decode : Json → Option α) (net : Net)
    (st : NetState) (kp : KeyPair) (kid : Option String) (nonce : String)
    (url : String) (payload : Option Json) : Except String α × NetState :=
  match joseRequest net st kp kid nonce url payload with
  | (.error e, st1) => (.error e, st1)
  | (.ok resp, st1) =>
      match resp.body.asJson.bind decode with
      | none => (.error "failed to decode response", st1)
      | some a => (.ok a, st1)

/-! ## Free functions of `client.rs` -/

/-- `get_directory`: unsigned GET of the directory URL; fails on transport
error, on non-success status, and on any body that does not decode into the
`Directory` shape. -/
def get_directory (net : Net) (st : NetState) (directory_url : String) :
    Except String Directory × NetState :=
  match sendReq net st (.get directory_url) with
  | (.error e, st1) => (.error ("failed to load directory: " ++ e), st1)
  | (.ok resp, st1) =>
      if !isSuccess resp.status then
        (.error ("failed to load directory: status = " ++ toString resp.status),
         st1)
      else
        match resp.body.asJson.bind Directory.fromJson? with
        | none => (.error "failed to load directory: decode error", st1)
        | some directory => (.ok directory, st1)

/-- The nonce value `get_nonce` extracts from a response: the
`replay-nonce` header converted by `HeaderValue::to_str`, defaulting to the
empty string when the header is absent or not convertible. -/
def nonceFromResp (resp : HttpResponse) : String :=
  (((lookupHeader resp.headers "replay-nonce").bind headerValueToStr?).getD "")

/-- `get_nonce`: unsigned GET of `directory.new_nonce`; fails on transport
error and on non-success status (with the same copy-pasted
"failed to load directory" message as the source); otherwise reads the
`replay-nonce` header tolerantly via `nonceFromResp`. -/
def get_nonce (net : Net) (st : NetState) (directory : Directory) :
    Except String String × NetState :=
  match sendReq net st (.get directory.new_nonce) with
  | (.error e, st1) => (.error ("failed to get nonce: " ++ e), st1)
  | (.ok resp, st1) =>
      if !isSuccess resp.status then
        (.error ("failed to load directory: status = " ++ toString resp.status),
         st1)
      else
        (.ok (nonceFromResp resp), st1)

/-- `create_acme_account`: draws a nonce, sends a signed POST (no kid yet)
to `directory.new_account` with the fixed registration body, and extracts
the account URL from the `Location` header, failing when it is absent. -/
def create_acme_account (net : Net) (st : NetState) (directory : Directory)
    (key_pair : KeyPair) : Except String String × NetState :=
  match get_nonce net st directory with
  | (.error e, st1) => (.error e, st1)
  | (.ok nonce, st1) =>
      match joseRequest net st1 key_pair none nonce directory.new_account
          (some (NewAccountRequest.toJson
            { only_return_existing := false,
              terms_of_service_agreed := true,
              contact := [] })) with
      | (.error e, st2) => (.error e, st2)
      | (.ok resp, st2) =>
          match (lookupHeader resp.headers "location").bind headerValueToStr? with
          | none => (.error "unable to get account id", st2)
          | some kid => (.ok kid, st2)

/-! ## The `AcmeClient` facade -/

/-- The ACME client: directory endpoints, shared key material and the
account id (kid), all fixed at construction. -/
structure AcmeClient where
  directory : Directory
  key_pair : KeyPair
  kid : String
deriving DecidableEq

/-- `AcmeClient::try_new`: fetches the directory, registers the account and
stores directory, key reference and kid; fails fatally when either step
fails. -/
def AcmeClient.try_new (net : Net) (directory_url : String)
    (key_pair : KeyPair) : Except String AcmeClient × NetState :=
  match get_directory net ⟨[]⟩ directory_url with
  | (.error e, st1) => (.error e, st1)
  | (.ok directory, st1) =>
      match create_acme_account net st1 directory key_pair with
      | (.error e, st2) => (.error e, st2)
      | (.ok kid, st2) => (.ok ⟨directory, key_pair, kid⟩, st2)

/-- `AcmeClient::new_order`: draws a nonce, then sends a signed POST to
`directory.new_order` whose payload carries one `dns` identifier per domain
in input order, decoding the JSON order response. -/
def AcmeClient.new_order (net : Net) (st : NetState) (c : AcmeClient)
    (domains : List String) : Except String NewOrderResponse × NetState :=
  match get_nonce net st c.directory with
  | (.error e, st1) => (.error e, st1)
  | (.ok nonce, st1) =>
      joseRequestJson NewOrderResponse.fromJson? net st1 c.key_pair
        (some c.kid) nonce c.directory.new_order
        (some (NewOrderRequest.toJson
          { identifiers :=
              domains.map fun domain => { ty := "dns", value := domain } }))

/-- `AcmeClient::fetch_authorization`: draws a nonce, then sends a signed
POST-as-GET (no payload) to the authorization URL and decodes the
response. -/
def AcmeClient.fetch_authorization (net : Net) (st : NetState)
    (c : AcmeClient) (auth_url : String) :
    Except String FetchAuthorizationResponse × NetState :=
  match get_nonce net st c.directory with
  | (.error e, st1) => (.error e, st1)
  | (.ok nonce, st1) =>
      joseRequestJson FetchAuthorizationResponse.fromJson? net st1 c.key_pair
        (some c.kid) nonce auth_url none

/-- `AcmeClient::trigger_challenge`: draws a nonce, then sends a signed
POST whose payload is the empty JSON object to the challenge URL; the
`domain` argument is used only for diagnostics (a `tracing::debug!` call)
and never transmitted. -/
def AcmeClient.trigger_challenge (net : Net) (st : NetState) (c : AcmeClient)
    (domain : String) (url : String) : Except String Unit × NetState :=
  match get_nonce net st c.directory with
  | (.error e, st1) => (.error e, st1)
  | (.ok nonce, st1) =>
      match joseRequest net st1 c.key_pair (some c.kid) nonce url
          (some (.obj [])) with
      | (.error e, st2) => (.error e, st2)
      | (.ok _, st2) => (.ok (), st2)

/-- `AcmeClient::send_csr`: draws a nonce, base64url-encodes the CSR DER
bytes without padding, and sends a signed POST `{csr: <encoded>}` to the
finalize URL, decoding the resulting order. -/
def AcmeClient.send_csr (net : Net) (st : NetState) (c : AcmeClient)
    (url : String) (csr : List Nat) : Except String NewOrderResponse × NetState :=
  match get_nonce net st c.directory with
  | (.error e, st1) => (.error e, st1)
  | (.ok nonce, st1) =>
      joseRequestJson NewOrderResponse.fromJson? net st1 c.key_pair
        (some c.kid) nonce url
        (some (CsrRequest.toJson { csr := String.mk (b64Encode csr) }))

/-- `AcmeClient::obtain_certificate`: draws a nonce, sends a signed
POST-as-GET to the certificate URL, and returns the full response body
unparsed. -/
def AcmeClient.obtain_certificate (net : Net) (st : NetState)
    (c : AcmeClient) (url : String) : Except String (List Nat) × NetState :=
  match get_nonce net st c.directory with
  | (.error e, st1) => (.error e, st1)
  | (.ok nonce, st1) =>
      match joseRequest net st1 c.key_pair (some c.kid) nonce url none with
      | (.error e, st2) => (.error e, st2)
      | (.ok resp, st2) => (.ok resp.body.bytes, st2)

/-! ## Helper lemmas -/

/-- A signed exchange always records exactly one sent request. -/
theorem joseRequest_sent (net : Net) (st : NetState) (kp : KeyPair)
    (kid : Option String) (nonce : String) (url : String)
    (payload : Option Json) :
    (joseRequest net st kp kid nonce url payload).2 =
      ⟨st.sent ++ [.signedPost kp kid nonce url payload]⟩ := by
  unfold joseRequest sendReq
  cases net st.sent (.signedPost kp kid nonce url payload) with
  | error e => rfl
  | ok resp =>
    dsimp only
    split <;> rfl

/-- A signed JSON exchange always records exactly one sent request. -/
theorem joseRequestJson_sent {α : Type} (decode : Json → Option α)
    (net : Net) (st : NetState) (kp : KeyPair) (kid : Option String)
    (nonce : String) (url : String) (payload : Option Json) :
    (joseRequestJson decode net st kp kid nonce url payload).2 =
      ⟨st.sent ++ [.signedPost kp kid nonce url payload]⟩ := by
  have h := joseRequest_sent net st kp kid nonce url payload
  unfold joseRequestJson
  cases hjr : joseRequest net st kp kid nonce url payload with
  | mk res st1 =>
    rw [hjr] at h
    cases res with
    | error e => simpa using h
    | ok resp =>
      dsimp only
      cases resp.body.asJson.bind decode <;> simpa using h

/-- A successful signed exchange returns the raw response. -/
theorem joseRequest_ok (net : Net) (st : NetState) (kp : KeyPair)
    (kid : Option String) (nonce : String) (url : String)
    (payload : Option Json) (resp : HttpResponse)
    (hresp : net st.sent (.signedPost kp kid nonce url payload) = .ok resp)
    (hok : isSuccess resp.status = true) :
    joseRequest net st kp kid nonce url payload =
      (.ok resp, ⟨st.sent ++ [.signedPost kp kid nonce url payload]⟩) := by
  unfold joseRequest sendReq
  rw [hresp]
  simp [hok]

/-- The nonce fetch always records exactly one sent request. -/
theorem get_nonce_sent (net : Net) (st : NetState) (d : Directory) :
    (get_nonce net st d).2 = ⟨st.sent ++ [.get d.new_nonce]⟩ := by
  unfold get_nonce sendReq
  cases net st.sent (.get d.new_nonce) with
  | error e => rfl
  | ok resp =>
    dsimp only
    split <;> rfl

/-- A successful nonce fetch returns the tolerant header reading and
records the one GET it sent. -/
theorem get_nonce_ok (net : Net) (st : NetState) (d : Directory)
    (resp : HttpResponse)
    (hresp : net st.sent (.get d.new_nonce) = .ok resp)
    (hok : isSuccess resp.status = true) :
    get_nonce net st d =
      (.ok (nonceFromResp resp), ⟨st.sent ++ [.get d.new_nonce]⟩) := by
  unfold get_nonce sendReq
  rw [hresp]
  simp [hok]

/-- A transport failure makes the nonce fetch fail, still recording the
GET. -/
theorem get_nonce_err_transport (net : Net) (st : NetState) (d : Directory)
    (e : String) (hresp : net st.sent (.get d.new_nonce) = .error e) :
    get_nonce net st d =
      (.error ("failed to get nonce: " ++ e), ⟨st.sent ++ [.get d.new_nonce]⟩) := by
  unfold get_nonce sendReq
  rw [hresp]

/-- A non-success status makes the nonce fetch fail, still recording the
GET. -/
theorem get_nonce_err_status (net : Net) (st : NetState) (d : Directory)
    (resp : HttpResponse)
    (hresp : net st.sent (.get d.new_nonce) = .ok resp)
    (hbad : isSuccess resp.status = false) :
    get_nonce net st d =
      (.error ("failed to load directory: status = " ++ toString resp.status),
       ⟨st.sent ++ [.get d.new_nonce]⟩) := by
  unfold get_nonce sendReq
  rw [hresp]
  simp [hbad]

/-! ## Concrete fixtures used by witnesses and counterexamples -/

/-- The Scenario A directory value. -/
def testDir : Directory :=
  ⟨"https://ca/acme/new-nonce", "https://ca/acme/new-account",
   "https://ca/acme/new-order"⟩

/-- A nonce response carrying `replay-nonce: abc123`. -/
def nonceResp : HttpResponse :=
  ⟨200, [("replay-nonce", strBytes "abc123")], ⟨[], none⟩⟩

/-- An account response carrying `Location: https://ca/acme/acct/1`. -/
def acctResp : HttpResponse :=
  ⟨200, [("location", strBytes "https://ca/acme/acct/1")], ⟨[], none⟩⟩

/-- A minimal JSON order body. -/
def orderJson : Json :=
  .obj [("status", .str "pending")]

/-- A success response whose body decodes as an order. -/
def okJsonResp : HttpResponse :=
  ⟨200, [], ⟨strBytes "order", some orderJson⟩⟩

/-- A network answering every GET with the nonce response and every signed
POST with the order response. -/
def testNet : Net := fun _ r =>
  match r with
  | .get _ => .ok nonceResp
  | .signedPost _ _ _ _ _ => .ok okJsonResp

/-- A constructed client over the Scenario A directory. -/
def testClient : AcmeClient :=
  ⟨testDir, ⟨0⟩, "https://ca/acme/acct/1"⟩

/-! ## Claims -/

/-- C1: for every non-empty ordered list of domain strings `D`, `new_order`
builds the identifier list of the request it sends with exactly `len D`
entries: the signed request transmitted to `directory.newOrder` carries the
payload `{identifiers: [...]}` whose array maps `D` element-wise in caller
order (so duplicates pass through unchanged), and the `i`-th entry of that
array has type `"dns"` and value `D[i]`. -/
theorem new_order_builds_dns_identifiers_in_order (net : Net) (st : NetState)
    (c : AcmeClient) (D : List String) (hD : D ≠ []) (resp : HttpResponse)
    (hresp : net st.sent (.get c.directory.new_nonce) = .ok resp)
    (hok : isSuccess resp.status = true) :
    (AcmeClient.new_order net st c D).2.sent =
      st.sent ++ [.get c.directory.new_nonce,
        .signedPost c.key_pair (some c.kid) (nonceFromResp resp)
          c.directory.new_order
          (some (.obj [("identifiers",
            .arr (D.map fun d =>
              Json.obj [("type", .str "dns"), ("value", .str d)]))]))] ∧
    (D.map fun d =>
        Json.obj [("type", .str "dns"), ("value", .str d)]).length = D.length ∧
    ∀ i (h : i < D.length),
      (D.map fun d =>
          Json.obj [("type", .str "dns"), ("value", .str d)]).get
          ⟨i, by simpa using h⟩ =
        Json.obj [("type", .str "dns"), ("value", .str (D.get ⟨i, h⟩))] := by
  refine ⟨?_, by simp, ?_⟩
  · unfold AcmeClient.new_order
    rw [get_nonce_ok net st c.directory resp hresp hok]
    dsimp only
    rw [joseRequestJson_sent]
    simp [NewOrderRequest.toJson, Identifier.toJson, List.map_map,
      Function.comp]
  · intro i h
    simp [List.get_eq_getElem, List.getElem_map]

/-- Witness for C1 at Scenario B's input: `new_order` on
`["example.com", "www.example.com"]` against the test network sends the
nonce GET followed by one signed POST with the two `dns` identifiers in
order. -/
theorem new_order_builds_dns_identifiers_in_order_witness :
    (AcmeClient.new_order testNet ⟨[]⟩ testClient
        ["example.com", "www.example.com"]).2.sent =
      [.get "https://ca/acme/new-nonce",
       .signedPost ⟨0⟩ (some "https://ca/acme/acct/1") "abc123"
         "https://ca/acme/new-order"
         (some (.obj [("identifiers",
           .arr [Json.obj [("type", .str "dns"),
                   ("value", .str "example.com")],
                 Json.obj [("type", .str "dns"),
                   ("value", .str "www.example.com")]])]))] := by
  have h := (new_order_builds_dns_identifiers_in_order testNet ⟨[]⟩ testClient
    ["example.com", "www.example.com"] (by simp) nonceResp rfl (by decide)).1
  exact h.trans (by rfl)

/-- A response whose `replay-nonce` header holds the single byte 200, which
is outside visible ASCII and so has no string value. -/
def badNonceResp : HttpResponse :=
  ⟨200, [("replay-nonce", [200])], ⟨[], none⟩⟩

/-- A network answering every GET with `badNonceResp`. -/
def badNonceNet : Net := fun _ r =>
  match r with
  | .get _ => .ok badNonceResp
  | .signedPost _ _ _ _ _ => .error "unexpected request"

/-- C2 (amended): the nonce fetch returns an error iff the transport
request fails or the HTTP status is not a success status; otherwise it
returns exactly the string value of the `replay-nonce` header when that
header is present and convertible to a string, and the empty string when
the header is absent — or present but not convertible. -/
theorem get_nonce_error_iff_and_header_value (net : Net) (st : NetState)
    (d : Directory) :
    ((∃ e, (get_nonce net st d).1 = .error e) ↔
      ((∃ te, net st.sent (.get d.new_nonce) = .error te) ∨
       (∃ resp, net st.sent (.get d.new_nonce) = .ok resp ∧
         isSuccess resp.status = false))) ∧
    (∀ resp, net st.sent (.get d.new_nonce) = .ok resp →
      isSuccess resp.status = true →
      ((∀ bs s, lookupHeader resp.headers "replay-nonce" = some bs →
          headerValueToStr? bs = some s → (get_nonce net st d).1 = .ok s) ∧
       (lookupHeader resp.headers "replay-nonce" = none →
          (get_nonce net st d).1 = .ok "") ∧
       (∀ bs, lookupHeader resp.headers "replay-nonce" = some bs →
          headerValueToStr? bs = none → (get_nonce net st d).1 = .ok ""))) := by
  refine ⟨⟨?_, ?_⟩, ?_⟩
  · rintro ⟨e, he⟩
    cases hnet : net st.sent (.get d.new_nonce) with
    | error te => exact .inl ⟨te, rfl⟩
    | ok resp =>
      cases hst : isSuccess resp.status with
      | false => exact .inr ⟨resp, rfl, hst⟩
      | true =>
        rw [get_nonce_ok net st d resp hnet hst] at he
        exact absurd he (by simp)
  · rintro (⟨te, hte⟩ | ⟨resp, hresp, hst⟩)
    · exact ⟨_, congrArg Prod.fst (get_nonce_err_transport net st d te hte)⟩
    · exact ⟨_, congrArg Prod.fst (get_nonce_err_status net st d resp hresp hst)⟩
  · intro resp hresp hok
    have hg := get_nonce_ok net st d resp hresp hok
    refine ⟨?_, ?_, ?_⟩
    · intro bs s hbs hs
      rw [hg]
      simp [nonceFromResp, hbs, hs]
    · intro hnone
      rw [hg]
      simp [nonceFromResp, hnone]
    · intro bs hbs hnone
      rw [hg]
      simp [nonceFromResp, hbs, hnone]

/-- C2 counterexample: against a network whose success nonce response
carries a present, non-empty `replay-nonce` header (the single byte 200),
the nonce fetch succeeds with the empty string, whose bytes differ from the
header's value — so the fetch does not return the header's value even
though the header is present. -/
theorem get_nonce_present_header_not_returned :
    (get_nonce badNonceNet ⟨[]⟩ testDir).1 = .ok "" ∧
    lookupHeader badNonceResp.headers "replay-nonce" = some [200] ∧
    isSuccess badNonceResp.status = true ∧
    strBytes "" ≠ [200] := by
  exact ⟨rfl, rfl, rfl, by decide⟩

/-- Witness for C2 (amended): against the test network, whose nonce
response carries `replay-nonce: abc123` with status 200, the fetch returns
`"abc123"` exactly. -/
theorem get_nonce_error_iff_and_header_value_witness :
    (get_nonce testNet ⟨[]⟩ testDir).1 = .ok "abc123" :=
  ((get_nonce_error_iff_and_header_value testNet ⟨[]⟩ testDir).2 nonceResp rfl
    (by decide)).1 (strBytes "abc123") "abc123" rfl (by decide)

/-- C10: when the `replay-nonce` header is present but its value cannot be
converted to a string (a byte outside visible ASCII), the nonce fetch does
not fail and does not return the header's bytes: it returns the empty
string, exactly as in the absent-header case. -/
theorem get_nonce_unconvertible_header_yields_empty (net : Net)
    (st : NetState) (d : Directory) (resp : HttpResponse) (bs : List Nat)
    (hresp : net st.sent (.get d.new_nonce) = .ok resp)
    (hok : isSuccess resp.status = true)
    (hbs : lookupHeader resp.headers "replay-nonce" = some bs)
    (hstr : headerValueToStr? bs = none) :
    (get_nonce net st d).1 = .ok "" := by
  rw [get_nonce_ok net st d resp hresp hok]
  simp [nonceFromResp, hbs, hstr]

/-- Witness for C10 at the byte-200 header. -/
theorem get_nonce_unconvertible_header_yields_empty_witness :
    (get_nonce badNonceNet ⟨[]⟩ testDir).1 = .ok "" :=
  get_nonce_unconvertible_header_yields_empty badNonceNet ⟨[]⟩ testDir
    badNonceResp [200] rfl (by decide) rfl (by decide)

/-- A network answering every GET with the nonce response and every signed
POST with the account response. -/
def acctNet : Net := fun _ r =>
  match r with
  | .get _ => .ok nonceResp
  | .signedPost _ _ _ _ _ => .ok acctResp

/-- C3: account registration sends a signed POST to `directory.newAccount`
(with the public key, no kid) whose body is exactly
`{onlyReturnExisting: false, termsOfServiceAgreed: true, contact: []}`;
it returns the value of the response's `Location` header as the account
id, and for every response lacking a `Location` header — even with a
success status — it returns an error. -/
theorem create_acme_account_fixed_body_and_location (net : Net)
    (st : NetState) (d : Directory) (kp : KeyPair) (resp : HttpResponse)
    (hresp : net st.sent (.get d.new_nonce) = .ok resp)
    (hok : isSuccess resp.status = true) :
    (create_acme_account net st d kp).2.sent =
      st.sent ++ [.get d.new_nonce,
        .signedPost kp none (nonceFromResp resp) d.new_account
          (some (.obj [("onlyReturnExisting", .bool false),
                       ("termsOfServiceAgreed", .bool true),
                       ("contact", .arr [])]))] ∧
    (∀ resp2, net (st.sent ++ [.get d.new_nonce])
        (.signedPost kp none (nonceFromResp resp) d.new_account
          (some (.obj [("onlyReturnExisting", .bool false),
                       ("termsOfServiceAgreed", .bool true),
                       ("contact", .arr [])]))) = .ok resp2 →
      isSuccess resp2.status = true →
      ((lookupHeader resp2.headers "location" = none →
          (create_acme_account net st d kp).1 =
            .error "unable to get account id") ∧
       (∀ bs s, lookupHeader resp2.headers "location" = some bs →
          headerValueToStr? bs = some s →
          (create_acme_account net st d kp).1 = .ok s))) := by
  constructor
  · unfold create_acme_account
    rw [get_nonce_ok net st d resp hresp hok]
    dsimp only
    have hsent := joseRequest_sent net ⟨st.sent ++ [.get d.new_nonce]⟩ kp none
      (nonceFromResp resp) d.new_account
      (some (NewAccountRequest.toJson
        { only_return_existing := false, terms_of_service_agreed := true,
          contact := [] }))
    cases hjr : joseRequest net ⟨st.sent ++ [.get d.new_nonce]⟩ kp none
        (nonceFromResp resp) d.new_account
        (some (NewAccountRequest.toJson
          { only_return_existing := false, terms_of_service_agreed := true,
            contact := [] })) with
    | mk res st2 =>
      rw [hjr] at hsent
      cases res with
      | error e => simpa [NewAccountRequest.toJson] using congrArg NetState.sent hsent
      | ok r2 =>
        dsimp only
        cases (lookupHeader r2.headers "location").bind headerValueToStr? <;>
          simpa [NewAccountRequest.toJson] using congrArg NetState.sent hsent
  · intro resp2 hresp2 hok2
    have hj := joseRequest_ok net ⟨st.sent ++ [.get d.new_nonce]⟩ kp none
      (nonceFromResp resp) d.new_account
      (some (NewAccountRequest.toJson
        { only_return_existing := false, terms_of_service_agreed := true,
          contact := [] })) resp2 hresp2 hok2
    constructor
    · intro hnone
      unfold create_acme_account
      rw [get_nonce_ok net st d resp hresp hok]
      dsimp only
      rw [hj]
      simp [hnone]
    · intro bs s hbs hs
      unfold create_acme_account
      rw [get_nonce_ok net st d resp hresp hok]
      dsimp only
      rw [hj]
      simp [hbs, hs]

/-- Witness for C3: against `acctNet` the registration returns the
`Location` value as the account id, and against `testNet` (whose account
response has status 200 and no `Location` header) it fails. -/
theorem create_acme_account_fixed_body_and_location_witness :
    (create_acme_account acctNet ⟨[]⟩ testDir ⟨0⟩).1 =
      .ok "https://ca/acme/acct/1" ∧
    (create_acme_account testNet ⟨[]⟩ testDir ⟨0⟩).1 =
      .error "unable to get account id" := by
  constructor
  · exact ((create_acme_account_fixed_body_and_location acctNet ⟨[]⟩ testDir
      ⟨0⟩ nonceResp rfl (by decide)).2 acctResp rfl (by decide)).2
      (strBytes "https://ca/acme/acct/1") "https://ca/acme/acct/1" rfl
      (by decide)
  · exact ((create_acme_account_fixed_body_and_location testNet ⟨[]⟩ testDir
      ⟨0⟩ nonceResp rfl (by decide)).2 okJsonResp rfl (by decide)).1 rfl

/-- A network that always fails at the transport level. -/
def errNet : Net := fun _ _ => .error "connection refused"

/-- A network answering every request with a bare HTTP 500. -/
def status500Net : Net := fun _ _ => .ok ⟨500, [], ⟨[], none⟩⟩

/-- A network answering every request with a 200 whose body is not valid
JSON. -/
def nonJsonNet : Net := fun _ _ => .ok ⟨200, [], ⟨strBytes "not json", none⟩⟩

/-- A network answering every request with a 200 whose JSON body lacks the
required `newAccount` and `newOrder` endpoint fields. -/
def missingFieldNet : Net := fun _ _ =>
  .ok ⟨200, [], ⟨[], some (.obj [("newNonce", .str "https://ca/n")])⟩⟩

/-- C4: the directory fetch returns an error (it is a total function, so it
never crashes) on transport failure, on a non-success status, on a success
response whose body is not valid JSON, and on a valid JSON body missing a
required endpoint field of the `Directory` shape; any such failure is fatal
to client construction, which propagates the error. -/
theorem get_directory_error_cases (net : Net) (st : NetState) (url : String) :
    (∀ e, net st.sent (.get url) = .error e →
      (get_directory net st url).1 =
        .error ("failed to load directory: " ++ e)) ∧
    (∀ resp, net st.sent (.get url) = .ok resp →
      isSuccess resp.status = false →
      (get_directory net st url).1 =
        .error ("failed to load directory: status = " ++ toString resp.status)) ∧
    (∀ resp, net st.sent (.get url) = .ok resp →
      isSuccess resp.status = true → resp.body.asJson = none →
      (get_directory net st url).1 =
        .error "failed to load directory: decode error") ∧
    (∀ resp j, net st.sent (.get url) = .ok resp →
      isSuccess resp.status = true → resp.body.asJson = some j →
      Directory.fromJson? j = none →
      (get_directory net st url).1 =
        .error "failed to load directory: decode error") ∧
    (∀ kp e, (get_directory net ⟨[]⟩ url).1 = .error e →
      (AcmeClient.try_new net url kp).1 = .error e) := by
  refine ⟨?_, ?_, ?_, ?_, ?_⟩
  · intro e he
    unfold get_directory sendReq
    rw [he]
  · intro resp hresp hbad
    unfold get_directory sendReq
    rw [hresp]
    simp [hbad]
  · intro resp hresp hok hnone
    unfold get_directory sendReq
    rw [hresp]
    simp [hok, hnone]
  · intro resp j hresp hok hjson hdec
    unfold get_directory sendReq
    rw [hresp]
    simp [hok, hjson, hdec]
  · intro kp e he
    unfold AcmeClient.try_new
    cases hgd : get_directory net ⟨[]⟩ url with
    | mk res st1 =>
      rw [hgd] at he
      cases res with
      | error e2 => simpa using he
      | ok d => simp at he

/-- Witness for C4: concrete failures of each kind, and propagation to
`try_new`. -/
theorem get_directory_error_cases_witness :
    (get_directory errNet ⟨[]⟩ "https://ca/dir").1 =
      .error "failed to load directory: connection refused" ∧
    (get_directory status500Net ⟨[]⟩ "https://ca/dir").1 =
      .error "failed to load directory: status = 500" ∧
    (get_directory nonJsonNet ⟨[]⟩ "https://ca/dir").1 =
      .error "failed to load directory: decode error" ∧
    (get_directory missingFieldNet ⟨[]⟩ "https://ca/dir").1 =
      .error "failed to load directory: decode error" ∧
    (AcmeClient.try_new errNet "https://ca/dir" ⟨0⟩).1 =
      .error "failed to load directory: connection refused" := by
  have h1 := get_directory_error_cases errNet ⟨[]⟩ "https://ca/dir"
  have h2 := get_directory_error_cases status500Net ⟨[]⟩ "https://ca/dir"
  have h3 := get_directory_error_cases nonJsonNet ⟨[]⟩ "https://ca/dir"
  have h4 := get_directory_error_cases missingFieldNet ⟨[]⟩ "https://ca/dir"
  refine ⟨h1.1 "connection refused" rfl, ?_, ?_, ?_, ?_⟩
  · exact h2.2.1 ⟨500, [], ⟨[], none⟩⟩ rfl (by decide)
  · exact h3.2.2.1 ⟨200, [], ⟨strBytes "not json", none⟩⟩ rfl (by decide) rfl
  · exact h4.2.2.2.1 ⟨200, [], ⟨[], some (.obj [("newNonce", .str "https://ca/n")])⟩⟩
      (.obj [("newNonce", .str "https://ca/n")]) rfl (by decide) rfl rfl
  · exact h1.2.2.2.2 ⟨0⟩ "failed to load directory: connection refused"
      (h1.1 "connection refused" rfl)

/-- The Scenario A directory body. -/
def dirJsonA : Json :=
  .obj [("newNonce", .str "https://ca/acme/new-nonce"),
        ("newAccount", .str "https://ca/acme/new-account"),
        ("newOrder", .str "https://ca/acme/new-order")]

/-- The Scenario A network: directory body declaring the three endpoints,
nonce responses carrying `replay-nonce: abc123`, and account responses
carrying `Location: https://ca/acme/acct/1`. -/
def scenarioANet : Net := fun _ r =>
  match r with
  | .get "https://ca/dir" => .ok ⟨200, [], ⟨[], some dirJsonA⟩⟩
  | .get "https://ca/acme/new-nonce" => .ok nonceResp
  | .signedPost _ _ _ "https://ca/acme/new-account" _ => .ok acctResp
  | _ => .error "unexpected request"

/-- A network serving the Scenario A directory but whose account response
carries no `Location` header, so account creation fails. -/
def dirOkAcctFailNet : Net := fun _ r =>
  match r with
  | .get "https://ca/dir" => .ok ⟨200, [], ⟨[], some dirJsonA⟩⟩
  | .get _ => .ok nonceResp
  | .signedPost _ _ _ _ _ => .ok okJsonResp

/-- C5: against the Scenario A network, `try_new` succeeds and the
constructed client stores account id (kid) `"https://ca/acme/acct/1"`;
and construction returns an error whenever the directory fetch fails
(network failure or malformed body) or account creation fails (no account
URL), propagating that error. -/
theorem try_new_scenario_a_and_failures :
    ((AcmeClient.try_new scenarioANet "https://ca/dir" ⟨0⟩).1 =
      .ok ⟨testDir, ⟨0⟩, "https://ca/acme/acct/1"⟩) ∧
    (∀ net url kp e, (get_directory net ⟨[]⟩ url).1 = .error e →
      (AcmeClient.try_new net url kp).1 = .error e) ∧
    (∀ net url kp d st1 e, get_directory net ⟨[]⟩ url = (.ok d, st1) →
      (create_acme_account net st1 d kp).1 = .error e →
      (AcmeClient.try_new net url kp).1 = .error e) := by
  refine ⟨rfl, ?_, ?_⟩
  · intro net url kp e he
    unfold AcmeClient.try_new
    cases hgd : get_directory net ⟨[]⟩ url with
    | mk res st1 =>
      rw [hgd] at he
      cases res with
      | error e2 => simpa using he
      | ok d => simp at he
  · intro net url kp d st1 e hgd he
    unfold AcmeClient.try_new
    rw [hgd]
    dsimp only
    cases hca : create_acme_account net st1 d kp with
    | mk res st2 =>
      rw [hca] at he
      cases res with
      | error e2 => simpa using he
      | ok kid => simp at he

/-- Witness for C5's failure branches: a transport failure and a
missing-account-URL failure both abort construction. -/
theorem try_new_scenario_a_and_failures_witness :
    (AcmeClient.try_new errNet "https://ca/dir" ⟨0⟩).1 =
      .error "failed to load directory: connection refused" ∧
    (AcmeClient.try_new dirOkAcctFailNet "https://ca/dir" ⟨0⟩).1 =
      .error "unable to get account id" := by
  have h := try_new_scenario_a_and_failures
  constructor
  · exact h.2.1 errNet "https://ca/dir" ⟨0⟩
      "failed to load directory: connection refused" rfl
  · exact h.2.2 dirOkAcctFailNet "https://ca/dir" ⟨0⟩ testDir
      ⟨[.get "https://ca/dir"]⟩ "unable to get account id" rfl rfl

/-- C7: `trigger_challenge` sends a signed POST whose payload is exactly
the empty JSON object `{}` to the challenge URL, and the domain argument
does not appear anywhere in the transmitted request: the whole outcome
(result and requests sent) is identical for any two domain arguments with
the same URL, network, state, and client. -/
theorem trigger_challenge_empty_payload_domain_untransmitted (net : Net)
    (st : NetState) (c : AcmeClient) (d1 d2 : String) (url : String) :
    AcmeClient.trigger_challenge net st c d1 url =
      AcmeClient.trigger_challenge net st c d2 url ∧
    (∀ resp, net st.sent (.get c.directory.new_nonce) = .ok resp →
      isSuccess resp.status = true →
      (AcmeClient.trigger_challenge net st c d1 url).2.sent =
        st.sent ++ [.get c.directory.new_nonce,
          .signedPost c.key_pair (some c.kid) (nonceFromResp resp) url
            (some (.obj []))]) := by
  refine ⟨rfl, ?_⟩
  intro resp hresp hok
  unfold AcmeClient.trigger_challenge
  rw [get_nonce_ok net st c.directory resp hresp hok]
  dsimp only
  have hsent := joseRequest_sent net ⟨st.sent ++ [.get c.directory.new_nonce]⟩
    c.key_pair (some c.kid) (nonceFromResp resp) url (some (.obj []))
  cases hjr : joseRequest net ⟨st.sent ++ [.get c.directory.new_nonce]⟩
      c.key_pair (some c.kid) (nonceFromResp resp) url (some (.obj [])) with
  | mk res st2 =>
    rw [hjr] at hsent
    cases res <;> simpa using congrArg NetState.sent hsent

/-- Witness for C7 at a concrete challenge URL. -/
theorem trigger_challenge_empty_payload_domain_untransmitted_witness :
    AcmeClient.trigger_challenge testNet ⟨[]⟩ testClient "example.com"
        "https://ca/chall/7" =
      AcmeClient.trigger_challenge testNet ⟨[]⟩ testClient "other.org"
        "https://ca/chall/7" ∧
    (AcmeClient.trigger_challenge testNet ⟨[]⟩ testClient "example.com"
        "https://ca/chall/7").2.sent =
      [.get "https://ca/acme/new-nonce",
       .signedPost ⟨0⟩ (some "https://ca/acme/acct/1") "abc123"
         "https://ca/chall/7" (some (.obj []))] := by
  have h := trigger_challenge_empty_payload_domain_untransmitted testNet ⟨[]⟩
    testClient "example.com" "other.org" "https://ca/chall/7"
  exact ⟨h.1, (h.2 nonceResp rfl (by decide)).trans (by rfl)⟩

/-- Decoding inverts the 6-bit character table. -/
theorem b64Val_b64Char : ∀ n, n < 64 → b64Val? (b64Char n) = some n := by
  decide

/-- Every 6-bit character is in the URL-safe alphabet and is not `=`. -/
theorem b64Char_alphabet :
    ∀ n, n < 64 → isUrlSafeB64Char (b64Char n) = true ∧
      b64Char n ≠ Char.ofNat 61 := by
  decide

/-- Every character produced by `b64Encode` is a 6-bit character. -/
theorem b64Encode_chars :
    ∀ (bs : List Nat) (ch : Char), ch ∈ b64Encode bs →
      ∃ n, n < 64 ∧ ch = b64Char n
  | [], ch => by simp [b64Encode]
  | [a], ch => by
      intro hch
      simp only [b64Encode, List.mem_cons, List.not_mem_nil, or_false] at hch
      rcases hch with h | h
      · exact ⟨a / 4 % 64, Nat.mod_lt _ (by norm_num), h⟩
      · exact ⟨a % 4 * 16, by omega, h⟩
  | [a, b], ch => by
      intro hch
      simp only [b64Encode, List.mem_cons, List.not_mem_nil, or_false] at hch
      rcases hch with h | h | h
      · exact ⟨a / 4 % 64, Nat.mod_lt _ (by norm_num), h⟩
      · exact ⟨a % 4 * 16 + b / 16 % 16, by omega, h⟩
      · exact ⟨b % 16 * 4, by omega, h⟩
  | a :: b :: c :: rest, ch => by
      intro hch
      simp only [b64Encode, List.mem_cons] at hch
      rcases hch with h | h | h | h | h
      · exact ⟨a / 4 % 64, Nat.mod_lt _ (by norm_num), h⟩
      · exact ⟨a % 4 * 16 + b / 16 % 16, by omega, h⟩
      · exact ⟨b % 16 * 4 + c / 64 % 4, by omega, h⟩
      · exact ⟨c % 64, Nat.mod_lt _ (by norm_num), h⟩
      · exact b64Encode_chars rest ch h

/-- Decoding the URL-safe no-padding encoding of any byte list recovers the
original bytes. -/
theorem b64_decode_encode :
    ∀ (bs : List Nat), (∀ b ∈ bs, b < 256) →
      b64Decode (b64Encode bs) = some bs
  | [] => fun _ => rfl
  | [a] => by
      intro h
      have ha : a < 256 := h a (by simp)
      have h1 := b64Val_b64Char (a / 4 % 64) (Nat.mod_lt _ (by norm_num))
      have h2 := b64Val_b64Char (a % 4 * 16) (by omega)
      simp only [b64Encode, b64Decode, h1, h2, Option.bind_eq_bind,
        Option.some_bind, Option.some.injEq, List.cons.injEq, and_true]
      omega
  | [a, b] => by
      intro h
      have ha : a < 256 := h a (by simp)
      have hb : b < 256 := h b (by simp)
      have h1 := b64Val_b64Char (a / 4 % 64) (Nat.mod_lt _ (by norm_num))
      have h2 := b64Val_b64Char (a % 4 * 16 + b / 16 % 16) (by omega)
      have h3 := b64Val_b64Char (b % 16 * 4) (by omega)
      simp only [b64Encode, b64Decode, h1, h2, h3, Option.bind_eq_bind,
        Option.some_bind, Option.some.injEq, List.cons.injEq, and_true]
      constructor <;> omega
  | a :: b :: c :: rest => by
      intro h
      have ha : a < 256 := h a (by simp)
      have hb : b < 256 := h b (by simp)
      have hc : c < 256 := h c (by simp)
      have ih := b64_decode_encode rest (fun x hx => h x (by simp [hx]))
      have h1 := b64Val_b64Char (a / 4 % 64) (Nat.mod_lt _ (by norm_num))
      have h2 := b64Val_b64Char (a % 4 * 16 + b / 16 % 16) (by omega)
      have h3 := b64Val_b64Char (b % 16 * 4 + c / 64 % 4) (by omega)
      have h4 := b64Val_b64Char (c % 64) (Nat.mod_lt _ (by norm_num))
      simp only [b64Encode, b64Decode, h1, h2, h3, h4, ih,
        Option.bind_eq_bind, Option.some_bind, Option.some.injEq,
        List.cons.injEq, and_true]
      refine ⟨by omega, by omega, by omega⟩

/-- C6: `send_csr` encodes the CSR DER bytes with URL-safe base64 and no
padding: the `csr` field of the payload it transmits is the encoding of the
bytes, made only of characters from the URL-safe alphabet
(`A-Z a-z 0-9 - _`), containing no `=` padding character, and decoding it
recovers the original bytes. -/
theorem send_csr_base64url_no_pad (net : Net) (st : NetState)
    (c : AcmeClient) (url : String) (csr : List Nat)
    (hbytes : ∀ b ∈ csr, b < 256) (resp : HttpResponse)
    (hresp : net st.sent (.get c.directory.new_nonce) = .ok resp)
    (hok : isSuccess resp.status = true) :
    (AcmeClient.send_csr net st c url csr).2.sent =
      st.sent ++ [.get c.directory.new_nonce,
        .signedPost c.key_pair (some c.kid) (nonceFromResp resp) url
          (some (.obj [("csr", .str (String.mk (b64Encode csr)))]))] ∧
    (∀ ch ∈ (String.mk (b64Encode csr)).data, isUrlSafeB64Char ch = true) ∧
    (∀ ch ∈ (String.mk (b64Encode csr)).data, ch ≠ Char.ofNat 61) ∧
    b64Decode (String.mk (b64Encode csr)).data = some csr := by
  refine ⟨?_, ?_, ?_, b64_decode_encode csr hbytes⟩
  · unfold AcmeClient.send_csr
    rw [get_nonce_ok net st c.directory resp hresp hok]
    dsimp only
    rw [joseRequestJson_sent]
    simp [CsrRequest.toJson]
  · intro ch hch
    obtain ⟨n, hn, rfl⟩ := b64Encode_chars csr ch hch
    exact (b64Char_alphabet n hn).1
  · intro ch hch
    obtain ⟨n, hn, rfl⟩ := b64Encode_chars csr ch hch
    exact (b64Char_alphabet n hn).2

/-- Witness for C6 at the three-byte CSR `[1, 2, 3]`: the payload carries
`{csr: "AQID"}` and decoding recovers the bytes. -/
theorem send_csr_base64url_no_pad_witness :
    (AcmeClient.send_csr testNet ⟨[]⟩ testClient "https://ca/finalize/1"
        [1, 2, 3]).2.sent =
      [.get "https://ca/acme/new-nonce",
       .signedPost ⟨0⟩ (some "https://ca/acme/acct/1") "abc123"
         "https://ca/finalize/1"
         (some (.obj [("csr", .str "AQID")]))] ∧
    b64Decode (String.mk (b64Encode [1, 2, 3])).data = some [1, 2, 3] := by
  have h := send_csr_base64url_no_pad testNet ⟨[]⟩ testClient
    "https://ca/finalize/1" [1, 2, 3] (by decide) nonceResp rfl (by decide)
  exact ⟨h.1.trans (by rfl), h.2.2.2⟩

/-- C8: every signed request issued by the client — the five facade
operations and account registration — consumes the nonce fetched by the
GET to the nonce endpoint performed immediately before that one request
(the value read from that GET's response), and the trace each operation
appends contains exactly that one nonce fetch followed by exactly that one
signed request, so fetched nonces are never cached, pooled, or reused
across calls. -/
theorem signed_requests_use_fresh_single_use_nonce :
    (∀ (net : Net) (st : NetState) (c : AcmeClient) (D : List String)
       (resp : HttpResponse),
      net st.sent (.get c.directory.new_nonce) = .ok resp →
      isSuccess resp.status = true →
      ∃ payload, (AcmeClient.new_order net st c D).2.sent =
        st.sent ++ [.get c.directory.new_nonce,
          .signedPost c.key_pair (some c.kid) (nonceFromResp resp)
            c.directory.new_order payload]) ∧
    (∀ (net : Net) (st : NetState) (c : AcmeClient) (auth_url : String)
       (resp : HttpResponse),
      net st.sent (.get c.directory.new_nonce) = .ok resp →
      isSuccess resp.status = true →
      (AcmeClient.fetch_authorization net st c auth_url).2.sent =
        st.sent ++ [.get c.directory.new_nonce,
          .signedPost c.key_pair (some c.kid) (nonceFromResp resp)
            auth_url none]) ∧
    (∀ (net : Net) (st : NetState) (c : AcmeClient) (domain url : String)
       (resp : HttpResponse),
      net st.sent (.get c.directory.new_nonce) = .ok resp →
      isSuccess resp.status = true →
      (AcmeClient.trigger_challenge net st c domain url).2.sent =
        st.sent ++ [.get c.directory.new_nonce,
          .signedPost c.key_pair (some c.kid) (nonceFromResp resp) url
            (some (.obj []))]) ∧
    (∀ (net : Net) (st : NetState) (c : AcmeClient) (url : String)
       (csr : List Nat) (resp : HttpResponse),
      net st.sent (.get c.directory.new_nonce) = .ok resp →
      isSuccess resp.status = true →
      ∃ payload, (AcmeClient.send_csr net st c url csr).2.sent =
        st.sent ++ [.get c.directory.new_nonce,
          .signedPost c.key_pair (some c.kid) (nonceFromResp resp) url
            payload]) ∧
    (∀ (net : Net) (st : NetState) (c : AcmeClient) (url : String)
       (resp : HttpResponse),
      net st.sent (.get c.directory.new_nonce) = .ok resp →
      isSuccess resp.status = true →
      (AcmeClient.obtain_certificate net st c url).2.sent =
        st.sent ++ [.get c.directory.new_nonce,
          .signedPost c.key_pair (some c.kid) (nonceFromResp resp) url
            none]) ∧
    (∀ (net : Net) (st : NetState) (d : Directory) (kp : KeyPair)
       (resp : HttpResponse),
      net st.sent (.get d.new_nonce) = .ok resp →
      isSuccess resp.status = true →
      ∃ payload, (create_acme_account net st d kp).2.sent =
        st.sent ++ [.get d.new_nonce,
          .signedPost kp none (nonceFromResp resp) d.new_account payload]) := by
  refine ⟨?_, ?_, ?_, ?_, ?_, ?_⟩
  · intro net st c D resp hresp hok
    refine ⟨some (NewOrderRequest.toJson
      { identifiers := D.map fun domain => { ty := "dns", value := domain } }),
      ?_⟩
    unfold AcmeClient.new_order
    rw [get_nonce_ok net st c.directory resp hresp hok]
    dsimp only
    rw [joseRequestJson_sent]
    simp
  · intro net st c auth_url resp hresp hok
    unfold AcmeClient.fetch_authorization
    rw [get_nonce_ok net st c.directory resp hresp hok]
    dsimp only
    rw [joseRequestJson_sent]
    simp
  · intro net st c domain url resp hresp hok
    unfold AcmeClient.trigger_challenge
    rw [get_nonce_ok net st c.directory resp hresp hok]
    dsimp only
    have hsent := joseRequest_sent net ⟨st.sent ++ [.get c.directory.new_nonce]⟩
      c.key_pair (some c.kid) (nonceFromResp resp) url (some (.obj []))
    cases hjr : joseRequest net ⟨st.sent ++ [.get c.directory.new_nonce]⟩
        c.key_pair (some c.kid) (nonceFromResp resp) url (some (.obj [])) with
    | mk res st2 =>
      rw [hjr] at hsent
      cases res <;> simpa using congrArg NetState.sent hsent
  · intro net st c url csr resp hresp hok
    refine ⟨some (CsrRequest.toJson { csr := String.mk (b64Encode csr) }), ?_⟩
    unfold AcmeClient.send_csr
    rw [get_nonce_ok net st c.directory resp hresp hok]
    dsimp only
    rw [joseRequestJson_sent]
    simp
  · intro net st c url resp hresp hok
    unfold AcmeClient.obtain_certificate
    rw [get_nonce_ok net st c.directory resp hresp hok]
    dsimp only
    have hsent := joseRequest_sent net ⟨st.sent ++ [.get c.directory.new_nonce]⟩
      c.key_pair (some c.kid) (nonceFromResp resp) url none
    cases hjr : joseRequest net ⟨st.sent ++ [.get c.directory.new_nonce]⟩
        c.key_pair (some c.kid) (nonceFromResp resp) url none with
    | mk res st2 =>
      rw [hjr] at hsent
      cases res <;> simpa using congrArg NetState.sent hsent
  · intro net st d kp resp hresp hok
    refine ⟨some (NewAccountRequest.toJson
      { only_return_existing := false, terms_of_service_agreed := true,
        contact := [] }), ?_⟩
    unfold create_acme_account
    rw [get_nonce_ok net st d resp hresp hok]
    dsimp only
    have hsent := joseRequest_sent net ⟨st.sent ++ [.get d.new_nonce]⟩ kp none
      (nonceFromResp resp) d.new_account
      (some (NewAccountRequest.toJson
        { only_return_existing := false, terms_of_service_agreed := true,
          contact := [] }))
    cases hjr : joseRequest net ⟨st.sent ++ [.get d.new_nonce]⟩ kp none
        (nonceFromResp resp) d.new_account
        (some (NewAccountRequest.toJson
          { only_return_existing := false, terms_of_service_agreed := true,
            contact := [] })) with
    | mk res st2 =>
      rw [hjr] at hsent
      cases res with
      | error e => simpa using congrArg NetState.sent hsent
      | ok r2 =>
        dsimp only
        cases (lookupHeader r2.headers "location").bind headerValueToStr? <;>
          simpa using congrArg NetState.sent hsent

/-- Witness for C8: each of the six signed operations, run against the test
network from an empty history, sends exactly its nonce GET followed by one
signed request carrying the freshly read `abc123`. -/
theorem signed_requests_use_fresh_single_use_nonce_witness :
    (∃ payload, (AcmeClient.new_order testNet ⟨[]⟩ testClient
        ["example.com"]).2.sent =
      [.get "https://ca/acme/new-nonce",
       .signedPost ⟨0⟩ (some "https://ca/acme/acct/1") "abc123"
         "https://ca/acme/new-order" payload]) ∧
    ((AcmeClient.fetch_authorization testNet ⟨[]⟩ testClient
        "https://ca/authz/1").2.sent =
      [.get "https://ca/acme/new-nonce",
       .signedPost ⟨0⟩ (some "https://ca/acme/acct/1") "abc123"
         "https://ca/authz/1" none]) ∧
    ((AcmeClient.trigger_challenge testNet ⟨[]⟩ testClient "example.com"
        "https://ca/chall/1").2.sent =
      [.get "https://ca/acme/new-nonce",
       .signedPost ⟨0⟩ (some "https://ca/acme/acct/1") "abc123"
         "https://ca/chall/1" (some (.obj []))]) ∧
    (∃ payload, (AcmeClient.send_csr testNet ⟨[]⟩ testClient
        "https://ca/fin/1" [1, 2, 3]).2.sent =
      [.get "https://ca/acme/new-nonce",
       .signedPost ⟨0⟩ (some "https://ca/acme/acct/1") "abc123"
         "https://ca/fin/1" payload]) ∧
    ((AcmeClient.obtain_certificate testNet ⟨[]⟩ testClient
        "https://ca/cert/1").2.sent =
      [.get "https://ca/acme/new-nonce",
       .signedPost ⟨0⟩ (some "https://ca/acme/acct/1") "abc123"
         "https://ca/cert/1" none]) ∧
    (∃ payload, (create_acme_account testNet ⟨[]⟩ testDir ⟨0⟩).2.sent =
      [.get "https://ca/acme/new-nonce",
       .signedPost ⟨0⟩ none "abc123" "https://ca/acme/new-account"
         payload]) := by
  have h := signed_requests_use_fresh_single_use_nonce
  exact ⟨h.1 testNet ⟨[]⟩ testClient ["example.com"] nonceResp rfl (by decide),
    h.2.1 testNet ⟨[]⟩ testClient "https://ca/authz/1" nonceResp rfl (by decide),
    h.2.2.1 testNet ⟨[]⟩ testClient "example.com" "https://ca/chall/1"
      nonceResp rfl (by decide),
    h.2.2.2.1 testNet ⟨[]⟩ testClient "https://ca/fin/1" [1, 2, 3] nonceResp
      rfl (by decide),
    h.2.2.2.2.1 testNet ⟨[]⟩ testClient "https://ca/cert/1" nonceResp rfl
      (by decide),
    h.2.2.2.2.2 testNet ⟨[]⟩ testDir ⟨0⟩ nonceResp rfl (by decide)⟩

/-- Against a history-independent network the result of
`obtain_certificate` does not depend on the request history. -/
theorem obtain_certificate_fst_const (f : Request → Except String HttpResponse)
    (c : AcmeClient) (url : String) (st : NetState) :
    (AcmeClient.obtain_certificate (fun _ => f) st c url).1 =
      (AcmeClient.obtain_certificate (fun _ => f) ⟨[]⟩ c url).1 := by
  unfold AcmeClient.obtain_certificate get_nonce joseRequest sendReq
  dsimp only
  cases f (.get c.directory.new_nonce) with
  | error e => rfl
  | ok resp =>
    dsimp only
    cases hs : isSuccess resp.status with
    | false => simp [hs]
    | true =>
      simp only [hs, Bool.not_true, Bool.false_eq_true, if_false]
      cases f (.signedPost c.key_pair (some c.kid) (nonceFromResp resp) url
          none) with
      | error e => rfl
      | ok r2 =>
        dsimp only
        cases isSuccess r2.status <;> rfl

/-- C9: two calls to `obtain_certificate` with the same URL against an
unchanged CA resource (a history-independent network) return identical
output — the full unparsed response body — with each call independently
sending its own nonce GET first; the client value is immutable, so neither
call mutates client state. -/
theorem obtain_certificate_idempotent_full_body
    (f : Request → Except String HttpResponse) (c : AcmeClient)
    (url : String) (st1 st2 : NetState) :
    ((AcmeClient.obtain_certificate (fun _ => f) st1 c url).1 =
      (AcmeClient.obtain_certificate (fun _ => f) st2 c url).1) ∧
    (∀ (st : NetState) (resp resp2 : HttpResponse),
      f (.get c.directory.new_nonce) = .ok resp →
      isSuccess resp.status = true →
      f (.signedPost c.key_pair (some c.kid) (nonceFromResp resp) url none) =
        .ok resp2 →
      isSuccess resp2.status = true →
      (AcmeClient.obtain_certificate (fun _ => f) st c url).1 =
        .ok resp2.body.bytes) ∧
    (∀ st : NetState, ∃ tail,
      (AcmeClient.obtain_certificate (fun _ => f) st c url).2.sent =
        st.sent ++ .get c.directory.new_nonce :: tail) := by
  refine ⟨(obtain_certificate_fst_const f c url st1).trans
    (obtain_certificate_fst_const f c url st2).symm, ?_, ?_⟩
  · intro st resp resp2 hresp hok hresp2 hok2
    unfold AcmeClient.obtain_certificate
    rw [get_nonce_ok (fun _ => f) st c.directory resp hresp hok]
    dsimp only
    have hj := joseRequest_ok (fun _ => f)
      (⟨st.sent ++ [Request.get c.directory.new_nonce]⟩ : NetState)
      c.key_pair (some c.kid) (nonceFromResp resp) url none resp2 hresp2 hok2
    rw [hj]
  · intro st
    cases hf : f (.get c.directory.new_nonce) with
    | error e =>
      refine ⟨[], ?_⟩
      unfold AcmeClient.obtain_certificate
      rw [get_nonce_err_transport (fun _ => f) st c.directory e hf]
    | ok resp =>
      cases hs : isSuccess resp.status with
      | false =>
        refine ⟨[], ?_⟩
        unfold AcmeClient.obtain_certificate
        rw [get_nonce_err_status (fun _ => f) st c.directory resp hf hs]
      | true =>
        refine ⟨[.signedPost c.key_pair (some c.kid) (nonceFromResp resp) url
          none], ?_⟩
        unfold AcmeClient.obtain_certificate
        rw [get_nonce_ok (fun _ => f) st c.directory resp hf hs]
        dsimp only
        have hsent := joseRequest_sent (fun _ => f)
          ⟨st.sent ++ [.get c.directory.new_nonce]⟩ c.key_pair (some c.kid)
          (nonceFromResp resp) url none
        cases hjr : joseRequest (fun _ => f)
            ⟨st.sent ++ [.get c.directory.new_nonce]⟩ c.key_pair (some c.kid)
            (nonceFromResp resp) url none with
        | mk res st2 =>
          rw [hjr] at hsent
          cases res <;> simpa using congrArg NetState.sent hsent

/-- Witness for C9: against the test network, the download from two
different histories yields the same bytes — the full body of the signed
response. -/
theorem obtain_certificate_idempotent_full_body_witness :
    ((AcmeClient.obtain_certificate (fun _ => testNet []) ⟨[]⟩ testClient
        "https://ca/cert/1").1 =
      (AcmeClient.obtain_certificate (fun _ => testNet [])
        ⟨[.get "https://ca/acme/new-nonce"]⟩ testClient
        "https://ca/cert/1").1) ∧
    ((AcmeClient.obtain_certificate (fun _ => testNet []) ⟨[]⟩ testClient
        "https://ca/cert/1").1 = .ok (strBytes "order")) := by
  have h := obtain_certificate_idempotent_full_body (testNet []) testClient
    "https://ca/cert/1" ⟨[]⟩ ⟨[.get "https://ca/acme/new-nonce"]⟩
  exact ⟨h.1, h.2.1 ⟨[]⟩ nonceResp okJsonResp rfl (by decide) rfl (by decide)⟩

end Acme
